import Mathlib

/-!
Verification of the ZeroTierOne core slice: CertificateOfMembership
serialization (node/CertificateOfMembership.hpp), the Node runtime entry
points (node/Node.cpp) and the controller store (controller/JSONDB.cpp),
shallowly embedded in Lean.  Buffers are lists of bytes (Nat, written
big-endian exactly as ZeroTier's Buffer does); machine integers are Nat
with explicit reductions mod 2^64 where the C++ wraps; C++ exceptions are
Except values; calls into collaborating components that may throw are
modelled by explicit outcome parameters.
-/

namespace ZeroTier

/-! ### Byte-level buffer primitives (node/Buffer.hpp access patterns) -/

/-- Big-endian 2-byte image of a uint16 value, as Buffer::append(uint16_t) writes it. -/
def u16be (x : Nat) : List Nat := [x / 2^8 % 256, x % 256]

/-- Big-endian 8-byte image of a uint64 value, as Buffer::append(uint64_t) writes it. -/
def u64be (x : Nat) : List Nat :=
  [x / 2^56 % 256, x / 2^48 % 256, x / 2^40 % 256, x / 2^32 % 256,
   x / 2^24 % 256, x / 2^16 % 256, x / 2^8 % 256, x % 256]

/-- Big-endian 5-byte image of a 40-bit ZeroTier address, as Address::appendTo writes it. -/
def addr5be (x : Nat) : List Nat :=
  [x / 2^32 % 256, x / 2^24 % 256, x / 2^16 % 256, x / 2^8 % 256, x % 256]

/-- Buffer::at of a uint16 at position p: two bytes, big-endian; none when out of range. -/
def readU16 (b : List Nat) (p : Nat) : Option Nat := do
  let b0 ← b[p]?
  let b1 ← b[p+1]?
  return b0 * 2^8 + b1

/-- Buffer::at of a uint64 at position p: eight bytes, big-endian; none when out of range. -/
def readU64 (b : List Nat) (p : Nat) : Option Nat := do
  let b0 ← b[p]?
  let b1 ← b[p+1]?
  let b2 ← b[p+2]?
  let b3 ← b[p+3]?
  let b4 ← b[p+4]?
  let b5 ← b[p+5]?
  let b6 ← b[p+6]?
  let b7 ← b[p+7]?
  return b0 * 2^56 + b1 * 2^48 + b2 * 2^40 + b3 * 2^32 + b4 * 2^24 + b5 * 2^16 + b6 * 2^8 + b7

/-- Address::setTo over 5 bytes obtained from Buffer::field(p,5); none when out of range. -/
def readAddr (b : List Nat) (p : Nat) : Option Nat := do
  let b0 ← b[p]?
  let b1 ← b[p+1]?
  let b2 ← b[p+2]?
  let b3 ← b[p+3]?
  let b4 ← b[p+4]?
  return b0 * 2^32 + b1 * 2^24 + b2 * 2^16 + b3 * 2^8 + b4

/-- Buffer::field(p,n): the n bytes starting at p; none when the range exceeds the buffer. -/
def readBytes (b : List Nat) (p n : Nat) : Option (List Nat) :=
  if p + n ≤ b.length then some ((b.drop p).take n) else none

/-! ### Certificate of membership (node/CertificateOfMembership.hpp) -/

/-- ZT_NETWORK_COM_MAX_QUALIFIERS. -/
def ZT_NETWORK_COM_MAX_QUALIFIERS : Nat := 8

/-- ZT_ADDRESS_LENGTH. -/
def ZT_ADDRESS_LENGTH : Nat := 5

/-- ZT_C25519_SIGNATURE_LEN. -/
def ZT_C25519_SIGNATURE_LEN : Nat := 96

/-- One (id,value,maxDelta) qualifier tuple of a COM; all three fields are uint64. -/
structure Qualifier where
  id : Nat
  value : Nat
  maxDelta : Nat
deriving DecidableEq

/-- CertificateOfMembership value: signer address (0 when unsigned), the first
_qualifierCount qualifier slots, and the 96-byte signature array. -/
structure CertificateOfMembership where
  signedBy : Nat
  qualifiers : List Qualifier
  signature : List Nat
deriving DecidableEq

/-- Field bounds of the C++ representation: every qualifier field fits a uint64. -/
def Qualifier.wfB (q : Qualifier) : Bool :=
  decide (q.id < 2^64) && decide (q.value < 2^64) && decide (q.maxDelta < 2^64)

/-- All qualifiers fit their C++ types. -/
def qualsWfB : List Qualifier → Bool
  | [] => true
  | q :: t => Qualifier.wfB q && qualsWfB t

/-- Representation bounds of a COM value: the signer is a 40-bit address, all
qualifier fields are uint64, and the signature array holds exactly 96 bytes. -/
def comWfB (c : CertificateOfMembership) : Bool :=
  decide (c.signedBy < 2^40) && qualsWfB c.qualifiers &&
    decide (c.signature.length = ZT_C25519_SIGNATURE_LEN)

/-- Qualifier ids read so far never drop below the running lastId (the order
condition CertificateOfMembership::deserialize checks with qid < lastId). -/
def nonDecFrom (lastId : Nat) : List Qualifier → Bool
  | [] => true
  | q :: t => decide (lastId ≤ q.id) && nonDecFrom q.id t

/-- Serialized byte image of the qualifier array, in order. -/
def qualBytes (q : Qualifier) : List Nat := u64be q.id ++ u64be q.value ++ u64be q.maxDelta

/-- Serialized byte image of a qualifier list, in order. -/
def qualsBytes : List Qualifier → List Nat
  | [] => []
  | q :: t => qualBytes q ++ qualsBytes t

/-- CertificateOfMembership::serialize: type byte 1, uint16 qualifier count,
the qualifier triples, the 5-byte signer address, and — only when the signer
address is nonzero — the 96 signature bytes. -/
def CertificateOfMembership.serialize (c : CertificateOfMembership) : List Nat :=
  [1] ++ u16be c.qualifiers.length ++ qualsBytes c.qualifiers ++ addr5be c.signedBy ++
    (if c.signedBy != 0 then c.signature else [])

/-- Exceptions CertificateOfMembership::deserialize can throw: the
ZT_EXCEPTION_INVALID_SERIALIZED_DATA codes plus Buffer's out-of-bounds throw. -/
inductive DeserErr
  | invalidType
  | badEncoding
  | overflow
  | outOfBounds
deriving DecidableEq

/-- The qualifier-reading loop of CertificateOfMembership::deserialize: reads
the requested number of qualifiers starting at position p, rejecting any id
below the previous one with badEncoding and a ninth qualifier with overflow.
Returns the accumulated qualifiers and the position after the loop. -/
def deserQuals (b : List Nat) : Nat → Nat → Nat → List Qualifier →
    Except DeserErr (List Qualifier × Nat)
  | 0, p, _, acc => .ok (acc, p)
  | n+1, p, lastId, acc =>
    match readU64 b p with
    | none => .error .outOfBounds
    | some qid =>
      if qid < lastId then .error .badEncoding
      else if acc.length < ZT_NETWORK_COM_MAX_QUALIFIERS then
        match readU64 b (p+8), readU64 b (p+16) with
        | some v, some d => deserQuals b n (p+24) qid (acc ++ [⟨qid, v, d⟩])
        | _, _ => .error .outOfBounds
      else .error .overflow

/-- CertificateOfMembership::deserialize: checks the type byte, reads the
qualifier count and the qualifiers, then the signer address, then — when the
signer is nonzero — the 96 signature bytes (a fresh certificate starts with a
zeroed signature, so the unsigned branch leaves 96 zero bytes).  Returns the
decoded certificate and the number of bytes consumed. -/
def CertificateOfMembership.deserialize (b : List Nat) (startAt : Nat) :
    Except DeserErr (CertificateOfMembership × Nat) :=
  match b[startAt]? with
  | none => .error .outOfBounds
  | some t =>
    if t != 1 then .error .invalidType
    else match readU16 b (startAt + 1) with
    | none => .error .outOfBounds
    | some numq =>
      match deserQuals b numq (startAt + 3) 0 [] with
      | .error e => .error e
      | .ok (qs, p) =>
        match readAddr b p with
        | none => .error .outOfBounds
        | some a =>
          if a != 0 then
            match readBytes b (p + ZT_ADDRESS_LENGTH) ZT_C25519_SIGNATURE_LEN with
            | none => .error .outOfBounds
            | some sig =>
              .ok (⟨a, qs, sig⟩, p + ZT_ADDRESS_LENGTH + ZT_C25519_SIGNATURE_LEN - startAt)
          else
            .ok (⟨0, qs, List.replicate ZT_C25519_SIGNATURE_LEN 0⟩,
                 p + ZT_ADDRESS_LENGTH - startAt)

/-- Pointwise qualifier comparison as the loop inside operator== performs it. -/
def qualListEq : List Qualifier → List Qualifier → Bool
  | [], [] => true
  | a :: as, b :: bs =>
    (a.id == b.id && a.value == b.value && a.maxDelta == b.maxDelta) && qualListEq as bs
  | _, _ => false

/-- CertificateOfMembership::operator==: same signer, same qualifier count,
identical qualifier tuples in order, equal signature bytes. -/
def comEq (a c : CertificateOfMembership) : Bool :=
  a.signedBy == c.signedBy && a.qualifiers.length == c.qualifiers.length &&
    qualListEq a.qualifiers c.qualifiers && a.signature == c.signature

/-- Concrete COM with two qualifiers carrying the same id 5 (unsigned, zero signature). -/
def comEqualIds : CertificateOfMembership :=
  ⟨0, [⟨5, 11, 7⟩, ⟨5, 22, 9⟩], List.replicate 96 0⟩

/-- Concrete signed COM holding the three reserved qualifiers of the required-fields
constructor (timestamp, network id, issued-to). -/
def comSignedExample : CertificateOfMembership :=
  ⟨0xdeadbeef11,
   [⟨0, 1000, 1000⟩, ⟨1, 0x8056001122334455, 0⟩, ⟨2, 0x0102030405, 2^64 - 1⟩],
   List.replicate 96 7⟩

/-- Concrete unsigned COM whose qualifier ids strictly decrease. -/
def comDecreasingIds : CertificateOfMembership :=
  ⟨0, [⟨9, 1, 2⟩, ⟨3, 4, 5⟩], List.replicate 96 0⟩

/-! ### Shared machine arithmetic and association-list maps -/

/-- uint64 subtraction a - b with wraparound (operands taken mod 2^64). -/
def sub64 (a b : Nat) : Nat := (a % 2^64 + (2^64 - b % 2^64)) % 2^64

/-- Lookup in an unordered-map snapshot represented as an association list. -/
def alistLookup {α : Type} : List (Nat × α) → Nat → Option α
  | [], _ => none
  | (k, v) :: t, key => if k = key then some v else alistLookup t key

/-- Erase by key in an unordered-map snapshot represented as an association list. -/
def alistErase {α : Type} : List (Nat × α) → Nat → List (Nat × α)
  | [], _ => []
  | (k, v) :: t, key => if k = key then alistErase t key else (k, v) :: alistErase t key

/-! ### Node runtime (node/Node.cpp) -/

/-- ZT_ResultCode values this slice produces. -/
inductive ZT_ResultCode
  | OK
  | ERROR_NETWORK_NOT_FOUND
  | FATAL_ERROR_OUT_OF_MEMORY
  | FATAL_ERROR_DATA_STORE_FAILED
  | FATAL_ERROR_INTERNAL
deriving DecidableEq

/-- Kinds of C++ exception the CAPI catch clauses distinguish. -/
inductive CppExc
  | badAlloc            -- matches catch (std::bad_alloc)
  | runtimeError        -- matches catch (std::runtime_error)
  | ztInvalidArgument   -- the integer code ZT_EXCEPTION_INVALID_ARGUMENT, only catch (...) matches
  | otherExc            -- anything else, only catch (...) matches
deriving DecidableEq

/-- Outcome of a call into a collaborating component that may throw. -/
inductive CallOutcome
  | normal
  | throwExc (e : CppExc)
deriving DecidableEq

/-- The node clock field _now that processWirePacket updates. -/
structure NodeClock where
  now : Nat
deriving DecidableEq

/-- Node::processWirePacket: stores now into _now, forwards the datagram to
Switch::onRemotePacket and returns OK; an exception thrown by the switch
escapes this method unhandled. -/
def processWirePacket (_st : NodeClock) (now : Nat) (switchOutcome : CallOutcome) :
    NodeClock × Except CppExc ZT_ResultCode :=
  let st1 : NodeClock := ⟨now⟩
  match switchOutcome with
  | .normal => (st1, .ok .OK)
  | .throwExc e => (st1, .error e)

/-- ZT_Node_processWirePacket: the extern C wrapper; bad_alloc becomes
FATAL_ERROR_OUT_OF_MEMORY and every other exception is swallowed into OK,
because an invalid packet is simply dropped while the system stays up. -/
def ZT_Node_processWirePacket (st : NodeClock) (now : Nat) (switchOutcome : CallOutcome) :
    NodeClock × ZT_ResultCode :=
  match processWirePacket st now switchOutcome with
  | (st1, .ok r) => (st1, r)
  | (st1, .error .badAlloc) => (st1, .FATAL_ERROR_OUT_OF_MEMORY)
  | (st1, .error _) => (st1, .OK)

/-- A Network object as Node::join constructs it; the creation-time user
pointer lets a proof observe whether join kept the first object or built a
second one. -/
structure Network where
  nwid : Nat
  uptr : Nat
deriving DecidableEq

/-- Node::join: _networks[nwid] finds or inserts the slot; a Network is
constructed only when the slot was empty, otherwise the existing object is
kept untouched; the call always returns OK. -/
def nodeJoin (networks : List (Nat × Network)) (nwid uptr : Nat) :
    List (Nat × Network) × ZT_ResultCode :=
  match alistLookup networks nwid with
  | some _ => (networks, .OK)
  | none => (networks ++ [(nwid, ⟨nwid, uptr⟩)], .OK)

/-- Host-visible side effects of Node::leave. -/
inductive LeaveEffect
  | configDestroy (nwid : Nat)
  | stateObjectDeleteNetworkConfig (nwid : Nat)
deriving DecidableEq

/-- Node::leave: when no membership exists it returns OK at once, leaving the
map untouched and invoking no callback; otherwise it destroys the network,
reports CONFIG_OPERATION_DESTROY to the host, erases the map entry and
deletes the persisted network config. -/
def nodeLeave (networks : List (Nat × Network)) (nwid : Nat) :
    List (Nat × Network) × ZT_ResultCode × List LeaveEffect :=
  match alistLookup networks nwid with
  | none => (networks, .OK, [])
  | some _ =>
    (alistErase networks nwid, .OK,
     [.configDestroy nwid, .stateObjectDeleteNetworkConfig nwid])

/-- Modelled from the spec: the timing constants of node/Constants.hpp (the
header is not part of this slice); the spec names PING_CHECK_INTERVAL,
TIMER_GRANULARITY and HOUSEKEEPING_PERIOD but fixes no numeric values, so
they stay abstract parameters. -/
structure TimingConsts where
  pingCheckInterval : Nat
  timerGranularity : Nat
  housekeepingPeriod : Nat
deriving DecidableEq

/-- The Node timestamps processBackgroundTasks reads and writes. -/
structure BgTaskState where
  lastPingCheck : Nat
  lastHousekeepingRun : Nat
deriving DecidableEq

/-- Behaviour of the collaborators one processBackgroundTasks call touches:
whether each try block throws and what Switch::doTimerTasks returns. -/
structure BgEnv where
  pingBlockThrows : Bool
  housekeepingThrows : Bool
  timerTasksThrows : Bool
  timerTasksRet : Nat
deriving DecidableEq

/-- timeUntilNextPingCheck as Node::processBackgroundTasks computes it: the
full interval when a ping check runs now, otherwise the interval minus the
time already elapsed. -/
def timeUntilNextPing (tc : TimingConsts) (st : BgTaskState) (now : Nat) : Nat :=
  if tc.pingCheckInterval ≤ sub64 now st.lastPingCheck then tc.pingCheckInterval
  else tc.pingCheckInterval - sub64 now st.lastPingCheck

/-- Node::processBackgroundTasks: runs the ping/config block when due (setting
_lastPingCheck first), then the housekeeping block when due, then writes
now + max(min(timeUntilNextPingCheck, doTimerTasks), GRANULARITY) through
nextBackgroundTaskDeadline; an exception in any block yields
FATAL_ERROR_INTERNAL before the deadline is written.  Returns the result
code, the value written through the deadline pointer (none when the call
failed first) and the updated timestamps. -/
def processBackgroundTasks (tc : TimingConsts) (st : BgTaskState) (now : Nat) (env : BgEnv) :
    ZT_ResultCode × Option Nat × BgTaskState :=
  let pingDue : Bool := decide (tc.pingCheckInterval ≤ sub64 now st.lastPingCheck)
  let st1 := if pingDue then { st with lastPingCheck := now } else st
  if pingDue && env.pingBlockThrows then (.FATAL_ERROR_INTERNAL, none, st1)
  else
    let housekeepingDue : Bool :=
      decide (tc.housekeepingPeriod ≤ sub64 now st.lastHousekeepingRun)
    let st2 := if housekeepingDue then { st1 with lastHousekeepingRun := now } else st1
    if housekeepingDue && env.housekeepingThrows then (.FATAL_ERROR_INTERNAL, none, st2)
    else if env.timerTasksThrows then (.FATAL_ERROR_INTERNAL, none, st2)
    else
      (.OK,
       some ((now + max (min (timeUntilNextPing tc st now) env.timerTasksRet)
         tc.timerGranularity) % 2^64),
       st2)

/-- Node::sendUserMessage: a self-addressed message is silently dropped and the
function returns 0; otherwise the packet is built, compressed and enqueued
and the function returns 1, with any exception swallowed into 0.  The Bool
records whether a VERB_USER_MESSAGE packet reached the switch. -/
def sendUserMessage (selfAddr dest : Nat) (packetOutcome : CallOutcome) : Nat × Bool :=
  if selfAddr != dest then
    match packetOutcome with
    | .normal => (1, true)
    | .throwExc _ => (0, false)
  else (0, false)

/-- NetworkController::ErrorCode values the spec's interface lists. -/
inductive NCErrorCode
  | NC_ERROR_OBJECT_NOT_FOUND
  | NC_ERROR_INTERNAL_SERVER_ERROR
  | NC_ERROR_ACCESS_DENIED
deriving DecidableEq

/-- Packet error codes ncSendError can place on the wire. -/
inductive PacketErrorCode
  | ERROR_OBJ_NOT_FOUND
  | ERROR_NETWORK_ACCESS_DENIED_
deriving DecidableEq

/-- Observable outcome of one Node::ncSendError call. -/
inductive NcSendErrorEffect
  | markNotFound (nwid : Nat)
  | markAccessDenied (nwid : Nat)
  | sendErrorPacket (dest requestPacketId : Nat) (code : PacketErrorCode) (nwid : Nat)
  | noEffect
deriving DecidableEq

/-- Node::ncSendError: a self destination marks the local network (when
joined) not-found or access-denied according to the code; a remote
destination with a nonzero request packet id gets an ERROR packet whose code
maps ACCESS_DENIED to NETWORK_ACCESS_DENIED and everything else to
OBJ_NOT_FOUND; a remote destination with request packet id zero is silently
discarded. -/
def ncSendError (selfAddr : Nat) (networks : List (Nat × Network))
    (nwid requestPacketId dest : Nat) (code : NCErrorCode) : NcSendErrorEffect :=
  if dest = selfAddr then
    match alistLookup networks nwid with
    | none => .noEffect
    | some _ =>
      match code with
      | .NC_ERROR_OBJECT_NOT_FOUND => .markNotFound nwid
      | .NC_ERROR_INTERNAL_SERVER_ERROR => .markNotFound nwid
      | .NC_ERROR_ACCESS_DENIED => .markAccessDenied nwid
  else if requestPacketId ≠ 0 then
    .sendErrorPacket dest requestPacketId
      (match code with
       | .NC_ERROR_ACCESS_DENIED => .ERROR_NETWORK_ACCESS_DENIED_
       | _ => .ERROR_OBJ_NOT_FOUND)
      nwid
  else .noEffect

/-- Host callbacks a Node construction can invoke, in order. -/
inductive CtorCall
  | stateGetIdSecret
  | statePutIdSecret
  | statePutIdPublic
  | stateGetIdPublic
  | postEventUp
deriving DecidableEq

/-- Environment of one Node construction: what the host and the subcomponent
constructors do. -/
structure CtorEnv where
  idSecretGetLen : Int
  idSecretParses : Bool
  idPublicGetOk : Bool
  idPublicMatches : Bool
  subComponentThrow : Option CppExc
deriving DecidableEq

/-- Node::Node: a nonzero callbacks version throws ZT_EXCEPTION_INVALID_ARGUMENT
before anything else happens — before the identity is loaded or generated and
before any state callback runs; otherwise the identity is loaded (regenerated
and persisted when absent or unparsable), the subcomponents are constructed,
and EVENT_UP is posted.  Returns the host calls made and the outcome. -/
def nodeCtor (cbVersion : Nat) (env : CtorEnv) : List CtorCall × Except CppExc Unit :=
  if cbVersion != 0 then ([], .error .ztInvalidArgument)
  else
    let loadCalls :=
      if env.idSecretGetLen > 0 && env.idSecretParses then
        [CtorCall.stateGetIdSecret, CtorCall.stateGetIdPublic] ++
          (if env.idPublicGetOk && !env.idPublicMatches then [CtorCall.statePutIdPublic] else [])
      else [CtorCall.stateGetIdSecret, CtorCall.statePutIdSecret, CtorCall.statePutIdPublic]
    match env.subComponentThrow with
    | some e => (loadCalls, .error e)
    | none => (loadCalls ++ [CtorCall.postEventUp], .ok ())

/-- ZT_Node_new: *node starts null and is assigned only when construction
succeeds; bad_alloc maps to FATAL_ERROR_OUT_OF_MEMORY, runtime_error to
FATAL_ERROR_DATA_STORE_FAILED and any other exception — including the integer
ZT_EXCEPTION_INVALID_ARGUMENT — to FATAL_ERROR_INTERNAL.  The Bool records
whether *node ends non-null. -/
def ZT_Node_new (cbVersion : Nat) (env : CtorEnv) : ZT_ResultCode × Bool × List CtorCall :=
  match nodeCtor cbVersion env with
  | (calls, .ok _) => (.OK, true, calls)
  | (calls, .error .badAlloc) => (.FATAL_ERROR_OUT_OF_MEMORY, false, calls)
  | (calls, .error .runtimeError) => (.FATAL_ERROR_DATA_STORE_FAILED, false, calls)
  | (calls, .error _) => (.FATAL_ERROR_INTERNAL, false, calls)

/-! ### Controller store (controller/JSONDB.cpp) -/

/-- NetworkSummaryInfo: derived per-network statistics. -/
structure NetworkSummaryInfo where
  activeBridges : List Nat
  allocatedIps : List Nat
  totalMemberCount : Nat
  authorizedMemberCount : Nat
  activeMemberCount : Nat
  mostRecentDeauthTime : Nat
deriving DecidableEq

/-- In-memory shadow of one network (struct _NW): msgpack-encoded config, the
member map, and the last committed summary. -/
structure NW where
  config : List Nat
  members : List (Nat × List Nat)
  summaryInfo : NetworkSummaryInfo
deriving DecidableEq

/-- The JSONDB in-memory network map. -/
structure JSONDBState where
  networks : List (Nat × NW)
deriving DecidableEq

/-- JSONDB::getNetworkAndMember: a const method; pass the state through to make
the absence of mutation explicit.  Returns 0 when the network is absent, 1
when the network exists but the member does not, and 3 when both exist — in
which case the network config, member config and summary are copied out. -/
def getNetworkAndMember (st : JSONDBState) (networkId nodeId : Nat) :
    JSONDBState × Nat × Option (List Nat × List Nat × NetworkSummaryInfo) :=
  match alistLookup st.networks networkId with
  | none => (st, 0, none)
  | some nw =>
    match alistLookup nw.members nodeId with
    | none => (st, 1, none)
    | some mc => (st, 3, some (nw.config, mc, nw.summaryInfo))

/-- Member fields the summary loop of JSONDB::threadMain reads, with the
OSUtils::json accessor defaults.  A recentLog entry is none when it is not a
JSON object; an ipAssignments entry is none when the string does not parse as
an IPv4/IPv6 address. -/
structure MemberRecord where
  authorized : Bool
  recentLog : List (Option Nat)
  activeBridge : Bool
  ipAssignments : List (Option Nat)
  lastDeauthorizedTime : Nat
deriving DecidableEq

/-- One iteration of the summary loop over member (mid, m); m is none when
from_msgpack throws, in which case the member contributes nothing (the
surrounding catch skips even the total count). -/
def summaryStep (now window : Nat) (ns : NetworkSummaryInfo) :
    Nat × Option MemberRecord → NetworkSummaryInfo
  | (_, none) => ns
  | (mid, some m) =>
    if m.authorized then
      let ns1 := { ns with authorizedMemberCount := ns.authorizedMemberCount + 1 }
      let ns2 :=
        match m.recentLog.head? with
        | some (some ts) =>
          if sub64 now ts < window then
            { ns1 with activeMemberCount := ns1.activeMemberCount + 1 }
          else ns1
        | _ => ns1
      let ns3 :=
        if m.activeBridge then { ns2 with activeBridges := ns2.activeBridges ++ [mid] }
        else ns2
      let ns4 := { ns3 with allocatedIps := ns3.allocatedIps ++ m.ipAssignments.filterMap id }
      { ns4 with totalMemberCount := ns4.totalMemberCount + 1 }
    else
      { ns with
        mostRecentDeauthTime := max ns.mostRecentDeauthTime m.lastDeauthorizedTime,
        totalMemberCount := ns.totalMemberCount + 1 }

/-- Sorted insertion, the characterization of what std::sort leaves behind. -/
def insertSorted (x : Nat) : List Nat → List Nat
  | [] => [x]
  | y :: t => if x ≤ y then x :: y :: t else y :: insertSorted x t

/-- Full sort of a list of naturals. -/
def sortNat : List Nat → List Nat
  | [] => []
  | x :: t => insertSorted x (sortNat t)

/-- Adjacent-pairs ordering check. -/
def isSortedLe : List Nat → Bool
  | [] => true
  | [_] => true
  | x :: y :: t => decide (x ≤ y) && isSortedLe (y :: t)

/-- The per-network recompute pass of JSONDB::threadMain: clear the summary,
fold the member map through the loop body, then sort the active-bridge and
allocated-ip lists.  The window argument stands for
ZT_NETWORK_AUTOCONF_DELAY * 2 (the constant lives outside this slice). -/
def computeSummary (now window : Nat) (members : List (Nat × Option MemberRecord)) :
    NetworkSummaryInfo :=
  let ns := members.foldl (summaryStep now window) ⟨[], [], 0, 0, 0, 0⟩
  { ns with activeBridges := sortNat ns.activeBridges,
            allocatedIps := sortNat ns.allocatedIps }

/-- Does the stored member blob parse. -/
def memberParses (e : Nat × Option MemberRecord) : Bool := e.2.isSome

/-- Is the member parseable and authorized. -/
def memberAuthorized (e : Nat × Option MemberRecord) : Bool :=
  match e.2 with
  | some m => m.authorized
  | none => false

/-- Is the member parseable, authorized, and active: its most recent recentLog
entry is an object whose timestamp lies within the activity window. -/
def memberActive (now window : Nat) (e : Nat × Option MemberRecord) : Bool :=
  match e.2 with
  | some m =>
    m.authorized &&
      (match m.recentLog.head? with
       | some (some ts) => decide (sub64 now ts < window)
       | _ => false)
  | none => false

/-- Contribution of one member to mostRecentDeauthTime: its
lastDeauthorizedTime when parseable and not authorized, 0 otherwise. -/
def deauthContrib (e : Nat × Option MemberRecord) : Nat :=
  match e.2 with
  | some m => if m.authorized then 0 else m.lastDeauthorizedTime
  | none => 0

/-- Contribution of one member to the activeBridges list: its id when
parseable, authorized and flagged activeBridge. -/
def bridgeContrib (e : Nat × Option MemberRecord) : List Nat :=
  match e.2 with
  | some m => if m.authorized && m.activeBridge then [e.1] else []
  | none => []

/-- Contribution of one member to the allocatedIps list: its parseable
assigned addresses when the member is parseable and authorized. -/
def ipContrib (e : Nat × Option MemberRecord) : List Nat :=
  match e.2 with
  | some m => if m.authorized then m.ipAssignments.filterMap id else []
  | none => []

/-- Maximum lastDeauthorizedTime over the parseable non-authorized members. -/
def maxDeauth : List (Nat × Option MemberRecord) → Nat
  | [] => 0
  | e :: t => max (deauthContrib e) (maxDeauth t)

/-- Member ids of the parseable authorized members flagged activeBridge. -/
def bridgeIds : List (Nat × Option MemberRecord) → List Nat
  | [] => []
  | e :: t => bridgeContrib e ++ bridgeIds t

/-- All parseable assigned addresses of parseable authorized members. -/
def ipsOf : List (Nat × Option MemberRecord) → List Nat
  | [] => []
  | e :: t => ipContrib e ++ ipsOf t

/-- Concrete store with one network (id 10) holding one member (id 20). -/
def exampleStore : JSONDBState :=
  ⟨[(10, ⟨[1, 2], [(20, [3, 4])], ⟨[], [], 1, 1, 0, 0⟩⟩)]⟩

/-- The S4 member set: two authorized members (one with a recent log entry)
and one member deauthorized at time 5000. -/
def exampleMembers : List (Nat × Option MemberRecord) :=
  [(0xa1, some ⟨true, [some 5900], false, [], 0⟩),
   (0xb2, some ⟨true, [], false, [], 0⟩),
   (0xc3, some ⟨false, [], false, [], 5000⟩)]

end ZeroTier

namespace ZeroTier

/-! ### Lemmas: positioned reads over appended buffers -/

theorem getElem?_middle (pre l rest : List Nat) (i : Nat) (h : i < l.length) :
    (pre ++ (l ++ rest))[pre.length + i]? = l[i]? := by
  rw [List.getElem?_append_right (Nat.le_add_right _ _), Nat.add_sub_cancel_left]
  exact List.getElem?_append_left h

theorem readU64_append (b pre rest : List Nat) (x p : Nat)
    (hb : b = pre ++ (u64be x ++ rest)) (hp : p = pre.length) :
    readU64 b p = some (x % 2^64) := by
  subst hb hp
  have g : ∀ i, i < 8 → (pre ++ (u64be x ++ rest))[pre.length + i]? = (u64be x)[i]? := by
    intro i hi
    exact getElem?_middle pre (u64be x) rest i (by simpa [u64be] using hi)
  have g0 : (pre ++ (u64be x ++ rest))[pre.length]? = (u64be x)[0]? := by
    simpa using g 0 (by omega)
  simp only [readU64, g0, g 1 (by omega), g 2 (by omega), g 3 (by omega), g 4 (by omega),
    g 5 (by omega), g 6 (by omega), g 7 (by omega)]
  simp [u64be, Option.bind]
  omega

theorem readU16_append (b pre rest : List Nat) (x p : Nat)
    (hb : b = pre ++ (u16be x ++ rest)) (hp : p = pre.length) :
    readU16 b p = some (x % 2^16) := by
  subst hb hp
  have g : ∀ i, i < 2 → (pre ++ (u16be x ++ rest))[pre.length + i]? = (u16be x)[i]? := by
    intro i hi
    exact getElem?_middle pre (u16be x) rest i (by simpa [u16be] using hi)
  have g0 : (pre ++ (u16be x ++ rest))[pre.length]? = (u16be x)[0]? := by
    simpa using g 0 (by omega)
  simp only [readU16, g0, g 1 (by omega)]
  simp [u16be, Option.bind]
  omega

theorem readAddr_append (b pre rest : List Nat) (x p : Nat)
    (hb : b = pre ++ (addr5be x ++ rest)) (hp : p = pre.length) :
    readAddr b p = some (x % 2^40) := by
  subst hb hp
  have g : ∀ i, i < 5 → (pre ++ (addr5be x ++ rest))[pre.length + i]? = (addr5be x)[i]? := by
    intro i hi
    exact getElem?_middle pre (addr5be x) rest i (by simpa [addr5be] using hi)
  have g0 : (pre ++ (addr5be x ++ rest))[pre.length]? = (addr5be x)[0]? := by
    simpa using g 0 (by omega)
  simp only [readAddr, g0, g 1 (by omega), g 2 (by omega), g 3 (by omega), g 4 (by omega)]
  simp [addr5be, Option.bind]
  omega

theorem readBytes_append (b pre l : List Nat) (p : Nat)
    (hb : b = pre ++ l) (hp : p = pre.length) :
    readBytes b p l.length = some l := by
  subst hb hp
  simp [readBytes, List.drop_left, List.take_left]

theorem qualsBytes_length (qs : List Qualifier) : (qualsBytes qs).length = 24 * qs.length := by
  induction qs with
  | nil => simp [qualsBytes]
  | cons q t ih => simp [qualsBytes, qualBytes, u64be, ih]; omega

/-! ### Lemmas: the deserialize qualifier loop -/

theorem deserQuals_ok (qs : List Qualifier) : ∀ (b pre rest : List Nat)
    (acc : List Qualifier) (lastId p : Nat),
    b = pre ++ (qualsBytes qs ++ rest) → p = pre.length →
    acc.length + qs.length ≤ 8 → qualsWfB qs = true → nonDecFrom lastId qs = true →
    deserQuals b qs.length p lastId acc = .ok (acc ++ qs, p + 24 * qs.length) := by
  induction qs with
  | nil =>
    intro b pre rest acc lastId p hb hp hlen hwf hnd
    simp [deserQuals]
  | cons q t ih =>
    intro b pre rest acc lastId p hb hp hlen hwf hnd
    simp only [List.length_cons] at hlen
    simp only [qualsWfB, Bool.and_eq_true] at hwf
    obtain ⟨hwfq, hwft⟩ := hwf
    simp only [Qualifier.wfB, Bool.and_eq_true, decide_eq_true_eq] at hwfq
    obtain ⟨⟨hid, hval⟩, hmd⟩ := hwfq
    simp only [nonDecFrom, Bool.and_eq_true, decide_eq_true_eq] at hnd
    obtain ⟨hle, hnd'⟩ := hnd
    have hb1 : b = pre ++ (u64be q.id ++ (u64be q.value ++ (u64be q.maxDelta ++
        (qualsBytes t ++ rest)))) := by
      rw [hb]; simp only [qualsBytes, qualBytes, List.append_assoc]
    have e1 : readU64 b p = some q.id := by
      rw [readU64_append b pre _ q.id p hb1 hp, Nat.mod_eq_of_lt hid]
    have hb2 : b = (pre ++ u64be q.id) ++ (u64be q.value ++ (u64be q.maxDelta ++
        (qualsBytes t ++ rest))) := by
      rw [hb1]; simp only [List.append_assoc]
    have hp2 : p + 8 = (pre ++ u64be q.id).length := by
      simp [u64be, hp]
    have e2 : readU64 b (p+8) = some q.value := by
      rw [readU64_append b _ _ q.value (p+8) hb2 hp2, Nat.mod_eq_of_lt hval]
    have hb3 : b = ((pre ++ u64be q.id) ++ u64be q.value) ++ (u64be q.maxDelta ++
        (qualsBytes t ++ rest)) := by
      rw [hb1]; simp only [List.append_assoc]
    have hp3 : p + 16 = ((pre ++ u64be q.id) ++ u64be q.value).length := by
      simp [u64be, hp]
    have e3 : readU64 b (p+16) = some q.maxDelta := by
      rw [readU64_append b _ _ q.maxDelta (p+16) hb3 hp3, Nat.mod_eq_of_lt hmd]
    simp only [List.length_cons, deserQuals, e1, e2, e3]
    rw [if_neg (by omega), if_pos (show acc.length < ZT_NETWORK_COM_MAX_QUALIFIERS by
      simp only [ZT_NETWORK_COM_MAX_QUALIFIERS]; omega)]
    have hq : (⟨q.id, q.value, q.maxDelta⟩ : Qualifier) = q := rfl
    rw [hq]
    have hb4 : b = (pre ++ qualBytes q) ++ (qualsBytes t ++ rest) := by
      rw [hb1]; simp only [qualBytes, List.append_assoc]
    have hp4 : p + 24 = (pre ++ qualBytes q).length := by
      simp [qualBytes, u64be, hp]
    rw [ih b (pre ++ qualBytes q) rest (acc ++ [q]) q.id (p+24) hb4 hp4
      (by simp only [List.length_append, List.length_cons, List.length_nil]; omega) hwft hnd']
    have h1 : (acc ++ [q]) ++ t = acc ++ q :: t := by simp
    have h2 : p + 24 + 24 * t.length = p + 24 * (t.length + 1) := by omega
    rw [h1, h2]

theorem deserQuals_bad (qs : List Qualifier) : ∀ (b pre rest : List Nat)
    (acc : List Qualifier) (lastId p : Nat),
    b = pre ++ (qualsBytes qs ++ rest) → p = pre.length →
    acc.length + qs.length ≤ 8 → qualsWfB qs = true → nonDecFrom lastId qs = false →
    deserQuals b qs.length p lastId acc = .error .badEncoding := by
  induction qs with
  | nil =>
    intro b pre rest acc lastId p hb hp hlen hwf hnd
    simp [nonDecFrom] at hnd
  | cons q t ih =>
    intro b pre rest acc lastId p hb hp hlen hwf hnd
    simp only [List.length_cons] at hlen
    simp only [qualsWfB, Bool.and_eq_true] at hwf
    obtain ⟨hwfq, hwft⟩ := hwf
    simp only [Qualifier.wfB, Bool.and_eq_true, decide_eq_true_eq] at hwfq
    obtain ⟨⟨hid, hval⟩, hmd⟩ := hwfq
    have hb1 : b = pre ++ (u64be q.id ++ (u64be q.value ++ (u64be q.maxDelta ++
        (qualsBytes t ++ rest)))) := by
      rw [hb]; simp only [qualsBytes, qualBytes, List.append_assoc]
    have e1 : readU64 b p = some q.id := by
      rw [readU64_append b pre _ q.id p hb1 hp, Nat.mod_eq_of_lt hid]
    simp only [List.length_cons, deserQuals, e1]
    by_cases hlt : q.id < lastId
    · rw [if_pos hlt]
    · rw [if_neg hlt]
      simp only [nonDecFrom, Bool.and_eq_true, decide_eq_true_eq, not_and] at hnd
      have hnd' : nonDecFrom q.id t = false := by
        cases hndt : nonDecFrom q.id t with
        | false => rfl
        | true => rw [hndt] at hnd; simp at hnd; omega
      have hb2 : b = (pre ++ u64be q.id) ++ (u64be q.value ++ (u64be q.maxDelta ++
          (qualsBytes t ++ rest))) := by
        rw [hb1]; simp only [List.append_assoc]
      have hp2 : p + 8 = (pre ++ u64be q.id).length := by
        simp [u64be, hp]
      have e2 : readU64 b (p+8) = some q.value := by
        rw [readU64_append b _ _ q.value (p+8) hb2 hp2, Nat.mod_eq_of_lt hval]
      have hb3 : b = ((pre ++ u64be q.id) ++ u64be q.value) ++ (u64be q.maxDelta ++
          (qualsBytes t ++ rest)) := by
        rw [hb1]; simp only [List.append_assoc]
      have hp3 : p + 16 = ((pre ++ u64be q.id) ++ u64be q.value).length := by
        simp [u64be, hp]
      have e3 : readU64 b (p+16) = some q.maxDelta := by
        rw [readU64_append b _ _ q.maxDelta (p+16) hb3 hp3, Nat.mod_eq_of_lt hmd]
      rw [if_pos (show acc.length < ZT_NETWORK_COM_MAX_QUALIFIERS by
        simp only [ZT_NETWORK_COM_MAX_QUALIFIERS]; omega)]
      simp only [e2, e3]
      have hq : (⟨q.id, q.value, q.maxDelta⟩ : Qualifier) = q := rfl
      rw [hq]
      have hb4 : b = (pre ++ qualBytes q) ++ (qualsBytes t ++ rest) := by
        rw [hb1]; simp only [qualBytes, List.append_assoc]
      have hp4 : p + 24 = (pre ++ qualBytes q).length := by
        simp [qualBytes, u64be, hp]
      exact ih b (pre ++ qualBytes q) rest (acc ++ [q]) q.id (p+24) hb4 hp4
        (by simp only [List.length_append, List.length_cons, List.length_nil]; omega) hwft hnd'

/-! ### Lemmas: full deserialize runs on serialized certificates -/

theorem com_decode_eq (c : CertificateOfMembership) (h8 : c.qualifiers.length ≤ 8)
    (hwf : comWfB c = true) (hnd : nonDecFrom 0 c.qualifiers = true) :
    CertificateOfMembership.deserialize (CertificateOfMembership.serialize c) 0 =
      Except.ok (⟨c.signedBy, c.qualifiers,
          if c.signedBy != 0 then c.signature else List.replicate ZT_C25519_SIGNATURE_LEN 0⟩,
        (CertificateOfMembership.serialize c).length) := by
  simp only [comWfB, Bool.and_eq_true, decide_eq_true_eq] at hwf
  obtain ⟨⟨hsb, hq⟩, hsl⟩ := hwf
  set n := c.qualifiers.length with hn
  set sigpart := (if c.signedBy != 0 then c.signature else []) with hsigpart
  set b := CertificateOfMembership.serialize c with hbdef
  have hb0 : b = [1] ++ (u16be n ++ (qualsBytes c.qualifiers ++
      (addr5be c.signedBy ++ sigpart))) := by
    rw [hbdef]; simp only [CertificateOfMembership.serialize, List.append_assoc]
  have e0 : b[0]? = some 1 := by
    rw [hb0]; rfl
  have e16 : readU16 b 1 = some n := by
    have h := readU16_append b [1] (qualsBytes c.qualifiers ++ (addr5be c.signedBy ++ sigpart))
      n 1 (by rw [hb0]) (by simp)
    rwa [Nat.mod_eq_of_lt (by omega)] at h
  have hb2 : b = ([1] ++ u16be n) ++ (qualsBytes c.qualifiers ++
      (addr5be c.signedBy ++ sigpart)) := by
    rw [hb0]; simp only [List.append_assoc]
  have dq : deserQuals b n 3 0 [] = .ok (c.qualifiers, 3 + 24 * n) := by
    have h := deserQuals_ok c.qualifiers b ([1] ++ u16be n) (addr5be c.signedBy ++ sigpart)
      [] 0 3 (by rw [hb2]) (by simp [u16be]) (by simpa using h8) hq hnd
    simpa using h
  have hb3 : b = (([1] ++ u16be n) ++ qualsBytes c.qualifiers) ++
      (addr5be c.signedBy ++ sigpart) := by
    rw [hb0]; simp only [List.append_assoc]
  have hp3 : 3 + 24 * n = (([1] ++ u16be n) ++ qualsBytes c.qualifiers).length := by
    simp [u16be, qualsBytes_length]; omega
  have ea : readAddr b (3 + 24 * n) = some c.signedBy := by
    have h := readAddr_append b (([1] ++ u16be n) ++ qualsBytes c.qualifiers) sigpart
      c.signedBy (3 + 24 * n) hb3 hp3
    rwa [Nat.mod_eq_of_lt hsb] at h
  simp only [CertificateOfMembership.deserialize, Nat.zero_add, e0, e16, dq, ea]
  by_cases hs : c.signedBy = 0
  · have : (c.signedBy != 0) = false := by simp [hs]
    rw [this] at hsigpart ⊢
    simp only [Bool.false_eq_true, if_false]
    have hlen : b.length = 3 + 24 * n + ZT_ADDRESS_LENGTH := by
      rw [hb0]; simp [hsigpart, u16be, addr5be, qualsBytes_length, ZT_ADDRESS_LENGTH]; omega
    rw [hs, hlen]
    simp
  · have hsTrue : (c.signedBy != 0) = true := by simp [hs]
    rw [hsTrue] at hsigpart ⊢
    simp only [if_true]
    have hb4 : b = ((([1] ++ u16be n) ++ qualsBytes c.qualifiers) ++ addr5be c.signedBy) ++
        c.signature := by
      rw [hb3]; simp [hsigpart]
    have hp4 : 3 + 24 * n + ZT_ADDRESS_LENGTH =
        ((([1] ++ u16be n) ++ qualsBytes c.qualifiers) ++ addr5be c.signedBy).length := by
      simp [u16be, addr5be, qualsBytes_length, ZT_ADDRESS_LENGTH]; omega
    have es : readBytes b (3 + 24 * n + ZT_ADDRESS_LENGTH) ZT_C25519_SIGNATURE_LEN =
        some c.signature := by
      have h := readBytes_append b
        ((([1] ++ u16be n) ++ qualsBytes c.qualifiers) ++ addr5be c.signedBy)
        c.signature (3 + 24 * n + ZT_ADDRESS_LENGTH) hb4 hp4
      rwa [hsl] at h
    rw [es]
    simp only [Nat.sub_zero]
    have hlen : b.length = 3 + 24 * n + ZT_ADDRESS_LENGTH + ZT_C25519_SIGNATURE_LEN := by
      rw [hb0]
      simp [hsigpart, u16be, addr5be, qualsBytes_length, ZT_ADDRESS_LENGTH,
        ZT_C25519_SIGNATURE_LEN, hsl]
      omega
    rw [hlen]
    simp

theorem qualListEq_refl (qs : List Qualifier) : qualListEq qs qs = true := by
  induction qs with
  | nil => rfl
  | cons q t ih => simp [qualListEq, ih]

theorem comEq_refl (c : CertificateOfMembership) : comEq c c = true := by
  simp [comEq, qualListEq_refl]

/-! ### Claim C1 -/

/-- C1 counterexample: a serialized COM whose two qualifiers carry the same id
(so the id sequence is not strictly ascending) deserializes successfully
instead of failing with BAD_ENCODING. -/
theorem com_equal_ids_decode_ok :
    CertificateOfMembership.deserialize (CertificateOfMembership.serialize comEqualIds) 0 =
      Except.ok (comEqualIds, 56) ∧
    comEqualIds.qualifiers = [⟨5, 11, 7⟩, ⟨5, 22, 9⟩] := by
  exact ⟨rfl, rfl⟩

/-- C1 (amended): CertificateOfMembership::deserialize fails with
ZT_EXCEPTION_INVALID_SERIALIZED_DATA_BAD_ENCODING exactly when some qualifier
id in the encoded sequence is strictly smaller than the one before it; runs
of equal qualifier ids are accepted (the check is qid < lastId, so the ids
need only be non-decreasing). -/
theorem com_deserialize_badEncoding_iff (c : CertificateOfMembership)
    (h8 : c.qualifiers.length ≤ 8) (hwf : comWfB c = true) :
    CertificateOfMembership.deserialize (CertificateOfMembership.serialize c) 0 =
        Except.error DeserErr.badEncoding ↔
      nonDecFrom 0 c.qualifiers = false := by
  constructor
  · intro h
    cases hnd : nonDecFrom 0 c.qualifiers
    · rfl
    · rw [com_decode_eq c h8 hwf hnd] at h
      cases h
  · intro hnd
    simp only [comWfB, Bool.and_eq_true, decide_eq_true_eq] at hwf
    obtain ⟨⟨hsb, hq⟩, hsl⟩ := hwf
    set n := c.qualifiers.length with hn
    set sigpart := (if c.signedBy != 0 then c.signature else []) with hsigpart
    set b := CertificateOfMembership.serialize c with hbdef
    have hb0 : b = [1] ++ (u16be n ++ (qualsBytes c.qualifiers ++
        (addr5be c.signedBy ++ sigpart))) := by
      rw [hbdef]; simp only [CertificateOfMembership.serialize, List.append_assoc]
    have e0 : b[0]? = some 1 := by
      rw [hb0]; rfl
    have e16 : readU16 b 1 = some n := by
      have h := readU16_append b [1]
        (qualsBytes c.qualifiers ++ (addr5be c.signedBy ++ sigpart)) n 1 (by rw [hb0]) (by simp)
      rwa [Nat.mod_eq_of_lt (by omega)] at h
    have hb2 : b = ([1] ++ u16be n) ++ (qualsBytes c.qualifiers ++
        (addr5be c.signedBy ++ sigpart)) := by
      rw [hb0]; simp only [List.append_assoc]
    have dq : deserQuals b n 3 0 [] = .error .badEncoding := by
      have h := deserQuals_bad c.qualifiers b ([1] ++ u16be n)
        (addr5be c.signedBy ++ sigpart) [] 0 3 (by rw [hb2]) (by simp [u16be])
        (by simpa using h8) hq hnd
      simpa using h
    simp only [CertificateOfMembership.deserialize, Nat.zero_add, e0, e16, dq]
    rfl

/-! ### Claim C2 -/

/-- C2: serialize followed by deserialize returns a certificate equal to the
original under operator== (same signer, same qualifier count, identical
(id,value,maxDelta) triples in order, equal signature), for both signed and
unsigned certificates.  Hypotheses state the COM class invariants: at most 8
qualifiers, fields within their C++ integer ranges, qualifier ids stored in
order, and a zeroed signature while unsigned. -/
theorem com_serialize_roundtrip (c : CertificateOfMembership)
    (h8 : c.qualifiers.length ≤ 8) (hwf : comWfB c = true)
    (hnd : nonDecFrom 0 c.qualifiers = true)
    (hsig0 : c.signedBy = 0 → c.signature = List.replicate ZT_C25519_SIGNATURE_LEN 0) :
    ∃ d : CertificateOfMembership,
      CertificateOfMembership.deserialize (CertificateOfMembership.serialize c) 0 =
        Except.ok (d, (CertificateOfMembership.serialize c).length) ∧
      comEq d c = true := by
  have hsig : (if c.signedBy != 0 then c.signature
      else List.replicate ZT_C25519_SIGNATURE_LEN 0) = c.signature := by
    by_cases hs : c.signedBy = 0
    · simp [hs, hsig0 hs]
    · simp [hs]
  refine ⟨c, ?_, comEq_refl c⟩
  rw [com_decode_eq c h8 hwf hnd, hsig]

/-- C2 witness: the round trip evaluated on a concrete signed certificate with
the three reserved qualifiers. -/
theorem com_serialize_roundtrip_witness :
    ∃ d : CertificateOfMembership,
      CertificateOfMembership.deserialize
          (CertificateOfMembership.serialize comSignedExample) 0 =
        Except.ok (d, (CertificateOfMembership.serialize comSignedExample).length) ∧
      comEq d comSignedExample = true :=
  com_serialize_roundtrip comSignedExample (by decide) (by decide) (by decide)
    (by intro h; cases h)

/-- C1 witness: the amended order property evaluated on a concrete unsigned
certificate whose qualifier ids strictly decrease. -/
theorem com_deserialize_badEncoding_iff_witness :
    CertificateOfMembership.deserialize (CertificateOfMembership.serialize comDecreasingIds) 0 =
        Except.error DeserErr.badEncoding ↔
      nonDecFrom 0 comDecreasingIds.qualifiers = false :=
  com_deserialize_badEncoding_iff comDecreasingIds (by decide) (by decide)

/-! ### Claim C3 -/

/-- C3: for every input to processWirePacket — whatever the switch does with
the datagram — the API boundary returns OK or FATAL_ERROR_OUT_OF_MEMORY and
nothing else, FATAL_ERROR_OUT_OF_MEMORY appears exactly when the switch threw
std::bad_alloc, and the packet-time update still happened. -/
theorem processWirePacket_error_containment (st : NodeClock) (now : Nat)
    (switchOutcome : CallOutcome) :
    ((ZT_Node_processWirePacket st now switchOutcome).2 = ZT_ResultCode.OK ∨
      (ZT_Node_processWirePacket st now switchOutcome).2 =
        ZT_ResultCode.FATAL_ERROR_OUT_OF_MEMORY) ∧
    ((ZT_Node_processWirePacket st now switchOutcome).2 =
        ZT_ResultCode.FATAL_ERROR_OUT_OF_MEMORY ↔
      switchOutcome = CallOutcome.throwExc CppExc.badAlloc) ∧
    (ZT_Node_processWirePacket st now switchOutcome).1 = ⟨now⟩ := by
  cases switchOutcome with
  | normal => simp [ZT_Node_processWirePacket, processWirePacket]
  | throwExc e => cases e <;> simp [ZT_Node_processWirePacket, processWirePacket]

/-- C3 witness: the containment evaluated on a concrete 1-byte-garbage style
call where the switch simply drops the packet. -/
theorem processWirePacket_error_containment_witness :
    ((ZT_Node_processWirePacket ⟨0⟩ 5 CallOutcome.normal).2 = ZT_ResultCode.OK ∨
      (ZT_Node_processWirePacket ⟨0⟩ 5 CallOutcome.normal).2 =
        ZT_ResultCode.FATAL_ERROR_OUT_OF_MEMORY) ∧
    ((ZT_Node_processWirePacket ⟨0⟩ 5 CallOutcome.normal).2 =
        ZT_ResultCode.FATAL_ERROR_OUT_OF_MEMORY ↔
      CallOutcome.normal = CallOutcome.throwExc CppExc.badAlloc) ∧
    (ZT_Node_processWirePacket ⟨0⟩ 5 CallOutcome.normal).1 = ⟨5⟩ :=
  processWirePacket_error_containment ⟨0⟩ 5 CallOutcome.normal

/-! ### Claim C9 -/

/-- C9: sendUserMessage returns 0 and sends nothing when the destination is
the node's own address; it returns 1 exactly when the destination differs
from the node's own address and packet construction and enqueue ran without
throwing (and then the message really was handed to the switch). -/
theorem sendUserMessage_self_drop (selfAddr dest : Nat) (packetOutcome : CallOutcome) :
    (dest = selfAddr → sendUserMessage selfAddr dest packetOutcome = (0, false)) ∧
    ((sendUserMessage selfAddr dest packetOutcome).1 = 1 ↔
      dest ≠ selfAddr ∧ packetOutcome = CallOutcome.normal) ∧
    ((sendUserMessage selfAddr dest packetOutcome).1 = 1 →
      (sendUserMessage selfAddr dest packetOutcome).2 = true) := by
  by_cases h : selfAddr = dest
  · subst h
    simp [sendUserMessage]
  · cases packetOutcome with
    | normal => simp [sendUserMessage, bne_iff_ne, h, Ne.symm h]
    | throwExc e => simp [sendUserMessage, bne_iff_ne, h, Ne.symm h]

/-- C9 witness: both branches evaluated at concrete addresses. -/
theorem sendUserMessage_self_drop_witness :
    (1234 = 1234 → sendUserMessage 1234 1234 CallOutcome.normal = (0, false)) ∧
    ((sendUserMessage 1234 1234 CallOutcome.normal).1 = 1 ↔
      1234 ≠ 1234 ∧ CallOutcome.normal = CallOutcome.normal) ∧
    ((sendUserMessage 1234 1234 CallOutcome.normal).1 = 1 →
      (sendUserMessage 1234 1234 CallOutcome.normal).2 = true) :=
  sendUserMessage_self_drop 1234 1234 CallOutcome.normal

/-! ### Claim C10 -/

/-- C10: a callbacks structure with nonzero version makes the constructor
throw before any subcomponent is built, so ZT_Node_new returns
FATAL_ERROR_INTERNAL (the integer exception is not bad_alloc and not
runtime_error), leaves *node null, and the construction performed no host
calls: no identity was loaded or generated and no state callback ran. -/
theorem nodeNew_nonzero_version (cbVersion : Nat) (env : CtorEnv) (h : cbVersion ≠ 0) :
    ZT_Node_new cbVersion env = (ZT_ResultCode.FATAL_ERROR_INTERNAL, false, []) ∧
    (nodeCtor cbVersion env).1 = [] := by
  have hv : (cbVersion != 0) = true := by simpa [bne_iff_ne] using h
  constructor
  · simp [ZT_Node_new, nodeCtor, hv]
  · simp [nodeCtor, hv]

/-- C10 witness: version 1 with an arbitrary concrete environment. -/
theorem nodeNew_nonzero_version_witness :
    ZT_Node_new 1 ⟨100, true, true, true, none⟩ =
      (ZT_ResultCode.FATAL_ERROR_INTERNAL, false, []) ∧
    (nodeCtor 1 ⟨100, true, true, true, none⟩).1 = [] :=
  nodeNew_nonzero_version 1 ⟨100, true, true, true, none⟩ (by decide)

/-! ### Claim C7 -/

/-- C7: ncSendError marks the joined local network not-found for
OBJECT_NOT_FOUND and INTERNAL_SERVER_ERROR and access-denied for
ACCESS_DENIED when the destination is the node itself; for a remote
destination with nonzero request packet id it sends an ERROR packet carrying
OBJ_NOT_FOUND for the first two codes and NETWORK_ACCESS_DENIED for
ACCESS_DENIED; and a remote destination with request packet id zero produces
no effect at all. -/
theorem ncSendError_cases (selfAddr : Nat) (networks : List (Nat × Network))
    (nwid rpi dest : Nat) (code : NCErrorCode) :
    (dest = selfAddr → (alistLookup networks nwid).isSome = true →
      (code = NCErrorCode.NC_ERROR_OBJECT_NOT_FOUND ∨
       code = NCErrorCode.NC_ERROR_INTERNAL_SERVER_ERROR) →
      ncSendError selfAddr networks nwid rpi dest code =
        NcSendErrorEffect.markNotFound nwid) ∧
    (dest = selfAddr → (alistLookup networks nwid).isSome = true →
      code = NCErrorCode.NC_ERROR_ACCESS_DENIED →
      ncSendError selfAddr networks nwid rpi dest code =
        NcSendErrorEffect.markAccessDenied nwid) ∧
    (dest ≠ selfAddr → rpi ≠ 0 →
      (code = NCErrorCode.NC_ERROR_OBJECT_NOT_FOUND ∨
       code = NCErrorCode.NC_ERROR_INTERNAL_SERVER_ERROR) →
      ncSendError selfAddr networks nwid rpi dest code =
        NcSendErrorEffect.sendErrorPacket dest rpi PacketErrorCode.ERROR_OBJ_NOT_FOUND nwid) ∧
    (dest ≠ selfAddr → rpi ≠ 0 → code = NCErrorCode.NC_ERROR_ACCESS_DENIED →
      ncSendError selfAddr networks nwid rpi dest code =
        NcSendErrorEffect.sendErrorPacket dest rpi
          PacketErrorCode.ERROR_NETWORK_ACCESS_DENIED_ nwid) ∧
    (dest ≠ selfAddr → rpi = 0 →
      ncSendError selfAddr networks nwid rpi dest code = NcSendErrorEffect.noEffect) := by
  refine ⟨?_, ?_, ?_, ?_, ?_⟩
  · intro hd hnw hcode
    cases hl : alistLookup networks nwid with
    | none => rw [hl] at hnw; cases hnw
    | some nw =>
      rcases hcode with h | h <;>
        simp [ncSendError, hd, hl, h]
  · intro hd hnw hcode
    cases hl : alistLookup networks nwid with
    | none => rw [hl] at hnw; cases hnw
    | some nw => simp [ncSendError, hd, hl, hcode]
  · intro hd hr hcode
    rcases hcode with h | h <;> simp [ncSendError, hd, hr, h]
  · intro hd hr hcode
    simp [ncSendError, hd, hr, hcode]
  · intro hd hr
    simp [ncSendError, hd, hr]

/-- C7 witness: all five cases evaluated at concrete inputs (self destination
with a joined network and code ACCESS_DENIED). -/
theorem ncSendError_cases_witness :
    (77 = 77 → (alistLookup [(5, (⟨5, 0⟩ : Network))] 5).isSome = true →
      (NCErrorCode.NC_ERROR_ACCESS_DENIED = NCErrorCode.NC_ERROR_OBJECT_NOT_FOUND ∨
       NCErrorCode.NC_ERROR_ACCESS_DENIED = NCErrorCode.NC_ERROR_INTERNAL_SERVER_ERROR) →
      ncSendError 77 [(5, ⟨5, 0⟩)] 5 9 77 NCErrorCode.NC_ERROR_ACCESS_DENIED =
        NcSendErrorEffect.markNotFound 5) ∧
    (77 = 77 → (alistLookup [(5, (⟨5, 0⟩ : Network))] 5).isSome = true →
      NCErrorCode.NC_ERROR_ACCESS_DENIED = NCErrorCode.NC_ERROR_ACCESS_DENIED →
      ncSendError 77 [(5, ⟨5, 0⟩)] 5 9 77 NCErrorCode.NC_ERROR_ACCESS_DENIED =
        NcSendErrorEffect.markAccessDenied 5) ∧
    (77 ≠ 77 → 9 ≠ 0 →
      (NCErrorCode.NC_ERROR_ACCESS_DENIED = NCErrorCode.NC_ERROR_OBJECT_NOT_FOUND ∨
       NCErrorCode.NC_ERROR_ACCESS_DENIED = NCErrorCode.NC_ERROR_INTERNAL_SERVER_ERROR) →
      ncSendError 77 [(5, ⟨5, 0⟩)] 5 9 77 NCErrorCode.NC_ERROR_ACCESS_DENIED =
        NcSendErrorEffect.sendErrorPacket 77 9 PacketErrorCode.ERROR_OBJ_NOT_FOUND 5) ∧
    (77 ≠ 77 → 9 ≠ 0 →
      NCErrorCode.NC_ERROR_ACCESS_DENIED = NCErrorCode.NC_ERROR_ACCESS_DENIED →
      ncSendError 77 [(5, ⟨5, 0⟩)] 5 9 77 NCErrorCode.NC_ERROR_ACCESS_DENIED =
        NcSendErrorEffect.sendErrorPacket 77 9
          PacketErrorCode.ERROR_NETWORK_ACCESS_DENIED_ 5) ∧
    (77 ≠ 77 → 9 = 0 →
      ncSendError 77 [(5, ⟨5, 0⟩)] 5 9 77 NCErrorCode.NC_ERROR_ACCESS_DENIED =
        NcSendErrorEffect.noEffect) :=
  ncSendError_cases 77 [(5, ⟨5, 0⟩)] 5 9 77 NCErrorCode.NC_ERROR_ACCESS_DENIED

/-! ### Claim C6 -/

/-- C6: getNetworkAndMember returns exactly 0 when the network is absent,
exactly 1 when the network exists but the member is absent, and exactly 3
when both exist (copying out the network config, member config and summary),
and it never mutates the store. -/
theorem getNetworkAndMember_tristate (st : JSONDBState) (networkId nodeId : Nat) :
    (getNetworkAndMember st networkId nodeId).1 = st ∧
    ((getNetworkAndMember st networkId nodeId).2.1 = 0 ↔
      alistLookup st.networks networkId = none) ∧
    ((getNetworkAndMember st networkId nodeId).2.1 = 1 ↔
      ∃ nw, alistLookup st.networks networkId = some nw ∧
        alistLookup nw.members nodeId = none) ∧
    ((getNetworkAndMember st networkId nodeId).2.1 = 3 ↔
      ∃ nw mc, alistLookup st.networks networkId = some nw ∧
        alistLookup nw.members nodeId = some mc) ∧
    (∀ nw mc, alistLookup st.networks networkId = some nw →
      alistLookup nw.members nodeId = some mc →
      (getNetworkAndMember st networkId nodeId).2.2 =
        some (nw.config, mc, nw.summaryInfo)) := by
  cases hn : alistLookup st.networks networkId with
  | none => simp [getNetworkAndMember, hn]
  | some nw =>
    cases hm : alistLookup nw.members nodeId with
    | none =>
      simp only [getNetworkAndMember, hn, hm]
      simp [hn, hm]
      intro nw1 mc h1 h2
      subst h1
      rw [hm] at h2
      exact Option.noConfusion h2
    | some mc =>
      simp only [getNetworkAndMember, hn, hm]
      simp [hn, hm]
      intro nw1 mc1 h1 h2
      subst h1
      rw [hm] at h2
      injection h2 with h2
      subst h2
      exact ⟨rfl, rfl, rfl⟩

/-- C6 witness: the tri-state evaluated on a one-network, one-member store. -/
theorem getNetworkAndMember_tristate_witness :
    (getNetworkAndMember exampleStore 10 20).1 = exampleStore ∧
    ((getNetworkAndMember exampleStore 10 20).2.1 = 0 ↔
      alistLookup exampleStore.networks 10 = none) ∧
    ((getNetworkAndMember exampleStore 10 20).2.1 = 1 ↔
      ∃ nw, alistLookup exampleStore.networks 10 = some nw ∧
        alistLookup nw.members 20 = none) ∧
    ((getNetworkAndMember exampleStore 10 20).2.1 = 3 ↔
      ∃ nw mc, alistLookup exampleStore.networks 10 = some nw ∧
        alistLookup nw.members 20 = some mc) ∧
    (∀ nw mc, alistLookup exampleStore.networks 10 = some nw →
      alistLookup nw.members 20 = some mc →
      (getNetworkAndMember exampleStore 10 20).2.2 =
        some (nw.config, mc, nw.summaryInfo)) :=
  getNetworkAndMember_tristate exampleStore 10 20

/-! ### Claim C4 -/

theorem alistLookup_append_of_none {α : Type} (l t : List (Nat × α)) (k : Nat)
    (h : alistLookup l k = none) : alistLookup (l ++ t) k = alistLookup t k := by
  induction l with
  | nil => simp
  | cons e l ih =>
    obtain ⟨k2, v2⟩ := e
    simp only [alistLookup] at h
    by_cases hk : k2 = k
    · rw [if_pos hk] at h; cases h
    · rw [if_neg hk] at h
      simp only [List.cons_append, alistLookup, if_neg hk]
      exact ih h

theorem countP_key_zero {α : Type} (l : List (Nat × α)) (k : Nat)
    (h : alistLookup l k = none) :
    l.countP (fun e => decide (e.1 = k)) = 0 := by
  induction l with
  | nil => simp
  | cons e l ih =>
    obtain ⟨k2, v2⟩ := e
    simp only [alistLookup] at h
    by_cases hk : k2 = k
    · rw [if_pos hk] at h; cases h
    · rw [if_neg hk] at h
      simp [List.countP_cons, hk, ih h]

theorem alistLookup_none_of_key_not_mem {α : Type} (l : List (Nat × α)) (k : Nat)
    (h : k ∉ l.map Prod.fst) : alistLookup l k = none := by
  induction l with
  | nil => rfl
  | cons e l ih =>
    obtain ⟨k2, v2⟩ := e
    simp only [List.map_cons, List.mem_cons] at h
    push_neg at h
    have hne : ¬ (k2 = k) := fun he => h.1 he.symm
    simp only [alistLookup, if_neg hne]
    exact ih h.2

theorem countP_key_one {α : Type} (l : List (Nat × α)) (k : Nat) (v : α)
    (hnd : (l.map Prod.fst).Nodup) (h : alistLookup l k = some v) :
    l.countP (fun e => decide (e.1 = k)) = 1 := by
  induction l with
  | nil => cases h
  | cons e l ih =>
    obtain ⟨k2, v2⟩ := e
    simp only [List.map_cons, List.nodup_cons] at hnd
    simp only [alistLookup] at h
    by_cases hk : k2 = k
    · subst hk
      have h0 : List.countP (fun e => decide (e.1 = k2)) l = 0 :=
        countP_key_zero l k2 (alistLookup_none_of_key_not_mem l k2 hnd.1)
      simp [List.countP_cons, h0]
    · rw [if_neg hk] at h
      simp [List.countP_cons, hk, ih hnd.2 h]

/-- C4: join is idempotent — a second join of the same network id leaves the
map unchanged (the Network object built by the first join is kept even if the
second join carries a different user pointer), both joins return OK, exactly
one entry for the id remains, and leave of an absent network returns OK with
the map untouched and no destroy callbacks. -/
theorem nodeJoin_idempotent (networks : List (Nat × Network)) (nwid u1 u2 : Nat)
    (hkeys : (networks.map Prod.fst).Nodup) :
    (nodeJoin networks nwid u1).2 = ZT_ResultCode.OK ∧
    nodeJoin (nodeJoin networks nwid u1).1 nwid u2 =
      ((nodeJoin networks nwid u1).1, ZT_ResultCode.OK) ∧
    (nodeJoin networks nwid u1).1.countP (fun e => decide (e.1 = nwid)) = 1 ∧
    (alistLookup networks nwid = none →
      nodeLeave networks nwid = (networks, ZT_ResultCode.OK, [])) := by
  cases hl : alistLookup networks nwid with
  | some nw =>
    refine ⟨by simp [nodeJoin, hl], by simp [nodeJoin, hl], ?_, ?_⟩
    · simp only [nodeJoin, hl]
      exact countP_key_one networks nwid nw hkeys hl
    · intro h; exact Option.noConfusion h
  | none =>
    have hl2 : alistLookup (networks ++ [(nwid, (⟨nwid, u1⟩ : Network))]) nwid =
        some ⟨nwid, u1⟩ := by
      rw [alistLookup_append_of_none networks _ nwid hl]
      simp [alistLookup]
    refine ⟨by simp [nodeJoin, hl], ?_, ?_, ?_⟩
    · simp [nodeJoin, hl, hl2]
    · simp only [nodeJoin, hl]
      rw [List.countP_append, countP_key_zero networks nwid hl]
      simp [List.countP_cons]
    · intro _
      simp [nodeLeave, hl]

/-- C4 witness: two joins of network 42 followed by leave of the absent
network 42 on the empty map. -/
theorem nodeJoin_idempotent_witness :
    (nodeJoin [] 42 7).2 = ZT_ResultCode.OK ∧
    nodeJoin (nodeJoin [] 42 7).1 42 9 = ((nodeJoin [] 42 7).1, ZT_ResultCode.OK) ∧
    (nodeJoin [] 42 7).1.countP (fun e => decide (e.1 = 42)) = 1 ∧
    (alistLookup ([] : List (Nat × Network)) 42 = none →
      nodeLeave [] 42 = ([], ZT_ResultCode.OK, [])) :=
  nodeJoin_idempotent [] 42 7 9 (by simp)

/-! ### Claim C5 -/

/-- C5: whenever processBackgroundTasks returns OK, the value written through
nextBackgroundTaskDeadline equals
now + max(min(timeUntilNextPingCheck, doTimerTasks), TIMER_GRANULARITY) and
is therefore at least now + TIMER_GRANULARITY (under the assumption that the
sum does not overflow a uint64, which holds for all realistic clocks). -/
theorem processBackgroundTasks_deadline (tc : TimingConsts) (st : BgTaskState)
    (now : Nat) (env : BgEnv)
    (hfit : now + max tc.pingCheckInterval tc.timerGranularity < 2^64) :
    (processBackgroundTasks tc st now env).1 = ZT_ResultCode.OK →
    ∃ d, (processBackgroundTasks tc st now env).2.1 = some d ∧
      d = now + max (min (timeUntilNextPing tc st now) env.timerTasksRet)
            tc.timerGranularity ∧
      now + tc.timerGranularity ≤ d := by
  intro hOK
  have htup : timeUntilNextPing tc st now ≤ tc.pingCheckInterval := by
    unfold timeUntilNextPing; split <;> omega
  have hmax : max (min (timeUntilNextPing tc st now) env.timerTasksRet)
      tc.timerGranularity ≤ max tc.pingCheckInterval tc.timerGranularity :=
    Nat.max_le.mpr ⟨le_trans (Nat.min_le_left _ _)
      (le_trans htup (Nat.le_max_left _ _)), Nat.le_max_right _ _⟩
  have hlt : now + max (min (timeUntilNextPing tc st now) env.timerTasksRet)
      tc.timerGranularity < 2^64 :=
    lt_of_le_of_lt (Nat.add_le_add_left hmax now) hfit
  by_cases h1 : (decide (tc.pingCheckInterval ≤ sub64 now st.lastPingCheck) &&
      env.pingBlockThrows) = true
  · exfalso; simp [processBackgroundTasks, h1] at hOK
  · by_cases h2 : (decide (tc.housekeepingPeriod ≤ sub64 now st.lastHousekeepingRun) &&
        env.housekeepingThrows) = true
    · exfalso; simp [processBackgroundTasks, h1, h2] at hOK
    · by_cases h3 : env.timerTasksThrows = true
      · exfalso; simp [processBackgroundTasks, h1, h2, h3] at hOK
      · refine ⟨now + max (min (timeUntilNextPing tc st now) env.timerTasksRet)
          tc.timerGranularity, ?_, rfl,
          Nat.add_le_add_left (Nat.le_max_right _ _) now⟩
        have hres : (processBackgroundTasks tc st now env).2.1 =
            some ((now + max (min (timeUntilNextPing tc st now) env.timerTasksRet)
              tc.timerGranularity) % 2^64) := by
          simp [processBackgroundTasks, h1, h2, h3]
        rw [hres, Nat.mod_eq_of_lt hlt]

/-- C5 witness: a concrete call in which the ping check is due, nothing
throws, and the timer tasks return 30000. -/
theorem processBackgroundTasks_deadline_witness :
    100000 + max 62000 500 < 2^64 ∧
    ((processBackgroundTasks ⟨62000, 500, 120000⟩ ⟨0, 0⟩ 100000
        ⟨false, false, false, 30000⟩).1 = ZT_ResultCode.OK →
      ∃ d, (processBackgroundTasks ⟨62000, 500, 120000⟩ ⟨0, 0⟩ 100000
          ⟨false, false, false, 30000⟩).2.1 = some d ∧
        d = 100000 + max (min (timeUntilNextPing ⟨62000, 500, 120000⟩ ⟨0, 0⟩ 100000) 30000)
              500 ∧
        100000 + 500 ≤ d) :=
  ⟨by norm_num, processBackgroundTasks_deadline ⟨62000, 500, 120000⟩ ⟨0, 0⟩ 100000
    ⟨false, false, false, 30000⟩ (by norm_num)⟩

/-! ### Claim C8 -/

theorem summaryStep_spec (now window : Nat) (ns : NetworkSummaryInfo)
    (mid : Nat) (om : Option MemberRecord) :
    summaryStep now window ns (mid, om) =
      { activeBridges := ns.activeBridges ++ bridgeContrib (mid, om),
        allocatedIps := ns.allocatedIps ++ ipContrib (mid, om),
        totalMemberCount := ns.totalMemberCount +
          (if memberParses (mid, om) then 1 else 0),
        authorizedMemberCount := ns.authorizedMemberCount +
          (if memberAuthorized (mid, om) then 1 else 0),
        activeMemberCount := ns.activeMemberCount +
          (if memberActive now window (mid, om) then 1 else 0),
        mostRecentDeauthTime :=
          max ns.mostRecentDeauthTime (deauthContrib (mid, om)) } := by
  obtain ⟨b, ip, tot, auth, act, dt⟩ := ns
  cases om with
  | none =>
    simp [summaryStep, memberParses, memberAuthorized, memberActive,
      deauthContrib, bridgeContrib, ipContrib]
  | some m =>
    by_cases hauth : m.authorized
    · rcases hh : m.recentLog.head? with _ | ots
      · by_cases hab : m.activeBridge <;>
          simp [summaryStep, memberParses, memberAuthorized, memberActive,
            deauthContrib, bridgeContrib, ipContrib, hauth, hh, hab]
      · rcases ots with _ | ts
        · by_cases hab : m.activeBridge <;>
            simp [summaryStep, memberParses, memberAuthorized, memberActive,
              deauthContrib, bridgeContrib, ipContrib, hauth, hh, hab]
        · by_cases hts : sub64 now ts < window <;> by_cases hab : m.activeBridge <;>
            simp [summaryStep, memberParses, memberAuthorized, memberActive,
              deauthContrib, bridgeContrib, ipContrib, hauth, hh, hab, hts]
    · simp [summaryStep, memberParses, memberAuthorized, memberActive,
        deauthContrib, bridgeContrib, ipContrib, hauth]

theorem summaryFold (now window : Nat) (ms : List (Nat × Option MemberRecord)) :
    ∀ ns : NetworkSummaryInfo,
    (ms.foldl (summaryStep now window) ns).totalMemberCount
        = ns.totalMemberCount + ms.countP memberParses ∧
    (ms.foldl (summaryStep now window) ns).authorizedMemberCount
        = ns.authorizedMemberCount + ms.countP memberAuthorized ∧
    (ms.foldl (summaryStep now window) ns).activeMemberCount
        = ns.activeMemberCount + ms.countP (memberActive now window) ∧
    (ms.foldl (summaryStep now window) ns).mostRecentDeauthTime
        = max ns.mostRecentDeauthTime (maxDeauth ms) ∧
    (ms.foldl (summaryStep now window) ns).activeBridges
        = ns.activeBridges ++ bridgeIds ms ∧
    (ms.foldl (summaryStep now window) ns).allocatedIps
        = ns.allocatedIps ++ ipsOf ms := by
  induction ms with
  | nil => intro ns; simp [maxDeauth, bridgeIds, ipsOf]
  | cons e t ih =>
    intro ns
    obtain ⟨mid, om⟩ := e
    simp only [List.foldl_cons, List.countP_cons, maxDeauth, bridgeIds, ipsOf,
      summaryStep_spec now window ns mid om]
    obtain ⟨h1, h2, h3, h4, h5, h6⟩ := ih
      { activeBridges := ns.activeBridges ++ bridgeContrib (mid, om),
        allocatedIps := ns.allocatedIps ++ ipContrib (mid, om),
        totalMemberCount := ns.totalMemberCount +
          (if memberParses (mid, om) then 1 else 0),
        authorizedMemberCount := ns.authorizedMemberCount +
          (if memberAuthorized (mid, om) then 1 else 0),
        activeMemberCount := ns.activeMemberCount +
          (if memberActive now window (mid, om) then 1 else 0),
        mostRecentDeauthTime :=
          max ns.mostRecentDeauthTime (deauthContrib (mid, om)) }
    refine ⟨?_, ?_, ?_, ?_, ?_, ?_⟩
    · rw [h1]; simp; split_ifs <;> omega
    · rw [h2]; simp; split_ifs <;> omega
    · rw [h3]; simp; split_ifs <;> omega
    · rw [h4]; simp [Nat.max_assoc]
    · rw [h5]; simp [List.append_assoc]
    · rw [h6]; simp [List.append_assoc]

theorem insertSorted_isSorted (x : Nat) (l : List Nat) (h : isSortedLe l = true) :
    isSortedLe (insertSorted x l) = true := by
  induction l with
  | nil => rfl
  | cons y t ih =>
    simp only [insertSorted]
    by_cases hxy : x ≤ y
    · rw [if_pos hxy]
      simp only [isSortedLe, Bool.and_eq_true, decide_eq_true_eq]
      exact ⟨hxy, h⟩
    · rw [if_neg hxy]
      have ht : isSortedLe t = true := by
        cases t with
        | nil => rfl
        | cons z t2 =>
          simp only [isSortedLe, Bool.and_eq_true] at h
          exact h.2
      have h1 := ih ht
      cases t with
      | nil =>
        simp only [insertSorted, isSortedLe, Bool.and_eq_true, decide_eq_true_eq]
        exact ⟨by omega, trivial⟩
      | cons z t2 =>
        simp only [isSortedLe, Bool.and_eq_true, decide_eq_true_eq] at h
        obtain ⟨hyz, hst⟩ := h
        simp only [insertSorted] at h1 ⊢
        by_cases hxz : x ≤ z
        · rw [if_pos hxz] at h1 ⊢
          simp only [isSortedLe, Bool.and_eq_true, decide_eq_true_eq] at h1 ⊢
          exact ⟨by omega, h1⟩
        · rw [if_neg hxz] at h1 ⊢
          simp only [isSortedLe, Bool.and_eq_true, decide_eq_true_eq] at h1 ⊢
          exact ⟨hyz, h1⟩

theorem sortNat_isSorted (l : List Nat) : isSortedLe (sortNat l) = true := by
  induction l with
  | nil => rfl
  | cons x t ih => exact insertSorted_isSorted x (sortNat t) ih

/-- C8: the recomputed summary is a pure function of the member set:
totalMemberCount counts the parseable members, authorizedMemberCount the
authorized ones, activeMemberCount the authorized members whose most recent
recentLog timestamp lies inside the activity window, mostRecentDeauthTime is
the maximum lastDeauthorizedTime over non-authorized members, the
activeBridges and allocatedIps lists come out sorted; and on the S4 member
set (three members, two authorized of which one recently active, one
deauthorized at 5000) the summary is {total 3, authorized 2, active 1,
mostRecentDeauthTime 5000}. -/
theorem computeSummary_spec (now window : Nat) (ms : List (Nat × Option MemberRecord)) :
    (computeSummary now window ms).totalMemberCount = ms.countP memberParses ∧
    (computeSummary now window ms).authorizedMemberCount = ms.countP memberAuthorized ∧
    (computeSummary now window ms).activeMemberCount
        = ms.countP (memberActive now window) ∧
    (computeSummary now window ms).mostRecentDeauthTime = maxDeauth ms ∧
    isSortedLe (computeSummary now window ms).activeBridges = true ∧
    isSortedLe (computeSummary now window ms).allocatedIps = true ∧
    computeSummary 6000 120000 exampleMembers = ⟨[], [], 3, 2, 1, 5000⟩ := by
  obtain ⟨h1, h2, h3, h4, h5, h6⟩ := summaryFold now window ms ⟨[], [], 0, 0, 0, 0⟩
  refine ⟨?_, ?_, ?_, ?_, ?_, ?_, ?_⟩
  · simpa [computeSummary] using h1
  · simpa [computeSummary] using h2
  · simpa [computeSummary] using h3
  · simpa [computeSummary] using h4
  · simp [computeSummary, sortNat_isSorted]
  · simp [computeSummary, sortNat_isSorted]
  · rfl

/-- C8 witness: the summary properties evaluated on the S4 member set. -/
theorem computeSummary_spec_witness :
    (computeSummary 6000 120000 exampleMembers).totalMemberCount
        = exampleMembers.countP memberParses ∧
    (computeSummary 6000 120000 exampleMembers).authorizedMemberCount
        = exampleMembers.countP memberAuthorized ∧
    (computeSummary 6000 120000 exampleMembers).activeMemberCount
        = exampleMembers.countP (memberActive 6000 120000) ∧
    (computeSummary 6000 120000 exampleMembers).mostRecentDeauthTime
        = maxDeauth exampleMembers ∧
    isSortedLe (computeSummary 6000 120000 exampleMembers).activeBridges = true ∧
    isSortedLe (computeSummary 6000 120000 exampleMembers).allocatedIps = true ∧
    computeSummary 6000 120000 exampleMembers = ⟨[], [], 3, 2, 1, 5000⟩ :=
  computeSummary_spec 6000 120000 exampleMembers

end ZeroTier
